import Mathlib

/-!
Shallow embedding of `bin/leo.py` (a CLI client for the leo.org dictionary):
the language code/name table and its two lookup functions, URL construction,
the page-fetch error path and the `__main__` exception dispatch, the result
extractor `getResults` and the table formatter `format_as_table`, together
with theorems settling the specification claims about them.

Python strings are modelled as Lean `String` (both are sequences of Unicode
code points, and Python `len` / Lean `String.length` both count code points).
Machine-level concerns do not arise: the script manipulates only strings,
small lists and small integer exit codes.
-/

set_option autoImplicit false

namespace Leo

/-! ### Python string primitives used by the script -/

/-- Characters treated as whitespace by Python's `str.split()` / `str.strip()`
(the ASCII whitespace class, plus NEL, plus the no-break space; the exotic
Unicode space code points never occur in the strings this program builds). -/
def isPySpace (c : Char) : Bool :=
  c = ' ' || c = '\t' || c = '\n' || c = '\x0d' || c = '\x0b' || c = '\x0c'
    || c = '\x85' || c = '\xa0'

/-- Python `str.strip()` on a list of characters: drop leading and trailing
whitespace. -/
def pyStripList (cs : List Char) : List Char :=
  ((cs.dropWhile isPySpace).reverse.dropWhile isPySpace).reverse

/-- Python `str.strip()`. -/
def pyStrip (s : String) : String :=
  String.mk (pyStripList s.toList)

/-- Python `str.split()` (no separator argument): split on runs of whitespace,
discarding empty fields.  `acc` holds the characters of the current word,
reversed. -/
def pySplitAux : List Char → List Char → List (List Char)
  | [], acc => if acc.isEmpty then [] else [acc.reverse]
  | c :: cs, acc =>
    if isPySpace c then
      if acc.isEmpty then pySplitAux cs [] else acc.reverse :: pySplitAux cs []
    else
      pySplitAux cs (c :: acc)

/-- Python `str.split()` on a `String`. -/
def pySplit (s : String) : List String :=
  (pySplitAux s.toList []).map String.mk

/-- Python `" ".join(s.split())`: collapse internal whitespace runs to single
spaces (and strip the ends, a side effect of `split`). -/
def collapseWs (s : String) : String :=
  String.intercalate " " (pySplit s)

/-- Python `"{:<{w}}".format(s)`: left-justify `s` in a field of width `w`,
padding with spaces on the right; a string longer than `w` is not truncated. -/
def pyLJust (s : String) (w : Nat) : String :=
  s ++ String.mk (List.replicate (w - s.length) ' ')

/-- Python `max(list)` over naturals: `none` models the `ValueError` that
`max` raises on an empty sequence. -/
def pyMax? : List Nat → Option Nat
  | [] => none
  | x :: xs => some (xs.foldl max x)

/-! ### The language table and its lookups (`LANGUAGES`, `lang_name`, `lang_short`) -/

/-- The `LANGUAGES` ordered dict of `bin/leo.py`: insertion-ordered mapping
from two-letter code to full (German) language name. -/
def LANGUAGES : List (String × String) :=
  [("en", "englisch"),
   ("fr", "französisch"),
   ("es", "spanisch"),
   ("it", "italienisch"),
   ("ch", "chinesisch"),
   ("ru", "russisch"),
   ("pt", "portugiesisch"),
   ("pl", "polnisch")]

/-- Python dict lookup `d[k]` on an insertion-ordered association list:
`none` models a `KeyError`. -/
def dictGet (k : String) : List (String × String) → Option String
  | [] => none
  | (k', v) :: rest => if k = k' then some v else dictGet k rest

/-- `lang_name` of `bin/leo.py`: translate a language shortcut to the full
name; a full name maps to itself; anything else (including an absent `-l`
argument, modelled as `none`) falls back to the first configured name.  The
`try/except KeyError` of the source is the match on `dictGet`. -/
def lang_name (lang : Option String) : String :=
  match lang with
  | some l =>
    match dictGet l LANGUAGES with
    | some name => name
    | none =>
      if LANGUAGES.any (fun p => p.snd = l) then l
      else ((LANGUAGES.map Prod.snd).headD "")
  | none => ((LANGUAGES.map Prod.snd).headD "")

/-- `lang_short` of `bin/leo.py`: translate a full language name to its
shortcut; a shortcut maps to itself; anything else falls back to the first
configured shortcut.  The `for short, name in LANGUAGES.items()` loop is the
`find?` over the table. -/
def lang_short (lang : Option String) : String :=
  match lang with
  | some l =>
    if LANGUAGES.any (fun p => p.fst = l) then l
    else
      match LANGUAGES.find? (fun p => p.snd = l) with
      | some p => p.fst
      | none => ((LANGUAGES.map Prod.fst).headD "")
  | none => ((LANGUAGES.map Prod.fst).headD "")

/-! ### URL construction -/

/-- The global `URL` template `"http://pda.leo.org/{0}-deutsch/{1}"` applied
by `__main__` as `URL.format(language, args.query)`: the language name and
the query string are interpolated verbatim; the script performs no
URL-encoding of the query. -/
def buildURL (language query : String) : String :=
  "http://pda.leo.org/" ++ language ++ "-deutsch/" ++ query

/-! ### Page fetch and the `__main__` exception dispatch

`getLeoPage` calls `requests.get` and raises
`requests.exceptions.HTTPError(response)` when `response.ok` is false.
Library semantics embedded here (requests 2.x):
`Response.ok` is "`raise_for_status()` does not raise", i.e. the status code
is not in `[400, 600)`; and the exception class hierarchy is
`HTTPError < RequestException < IOError`, `Timeout < RequestException`,
while `requests.exceptions.BaseHTTPError` is `urllib3.exceptions.HTTPError`,
a direct subclass of `Exception` — so a `requests` `HTTPError` is an
`IOError` but NOT a `BaseHTTPError`. -/

/-- `requests.Response.ok`: true unless the status code is in `[400, 600)`. -/
def response_ok (status : Nat) : Bool :=
  !(400 ≤ status && status < 600)

/-- The exceptions that can reach the `try/except` of `__main__`, tagged by
their Python class. -/
inductive PyExn where
  /-- `requests.exceptions.HTTPError(response)`, raised by `getLeoPage`;
  carries the response's status code. -/
  | requestsHTTPError (status : Nat)
  /-- `requests.exceptions.Timeout`, raised inside `requests.get`. -/
  | requestsTimeout
  /-- `requests.exceptions.BaseHTTPError` = `urllib3.exceptions.HTTPError`. -/
  | urllib3HTTPError
  /-- Any other `IOError` (e.g. a socket error surfacing as `OSError`). -/
  | otherIOError
  /-- `ValueError` (e.g. from `max([])` in `format_as_table`). -/
  | valueError
deriving DecidableEq, Repr

/-- `isinstance(e, requests.exceptions.Timeout)`. -/
def isTimeout : PyExn → Bool
  | .requestsTimeout => true
  | _ => false

/-- `isinstance(e, requests.exceptions.BaseHTTPError)`: only urllib3's
`HTTPError` and its subclasses; `requests.exceptions.HTTPError` is not one. -/
def isBaseHTTPError : PyExn → Bool
  | .urllib3HTTPError => true
  | _ => false

/-- `isinstance(e, IOError)`: `RequestException` subclasses `IOError`, so
`HTTPError` and `Timeout` qualify; urllib3's `HTTPError` and `ValueError`
do not. -/
def isIOError : PyExn → Bool
  | .requestsHTTPError _ => true
  | .requestsTimeout => true
  | .otherIOError => true
  | _ => false

/-- The error path of `getLeoPage` for a response with the given status:
`some e` means the call raises `e`, `none` means it returns the parsed page. -/
def getLeoPageExn (status : Nat) : Option PyExn :=
  if response_ok status then none
  else some (.requestsHTTPError status)

/-- The `except` clauses of `__main__`, in order: `some code` means the
exception is caught and the process exits with `code`; `none` means no clause
matches, the exception propagates, and the interpreter terminates with a
traceback (not one of the documented exit codes). -/
def handledExit (e : PyExn) : Option Nat :=
  if isTimeout e then some 10
  else if isBaseHTTPError e then some 15
  else if isIOError e then some 20
  else none

/-- Exit code of the `try/except` block of `__main__` given the exception
raised by the fetch of a response with the given status (`returncode` stays 0
when nothing is raised); `none` = uncaught. -/
def exitForResponse (status : Nat) : Option Nat :=
  match getLeoPageExn status with
  | none => some 0
  | some e => handledExit e

/-- The `sys.exit(200)` import guard for a missing `requests` module. -/
def missingRequestsExit : Nat := 200

/-- The `sys.exit(10)` import guard for a missing `lxml` module. -/
def missingLxmlExit : Nat := 10

/-! ### The result page, the extractor `getResults` and the formatter
`format_as_table`

The HTML tree is modelled by what the script inspects: the `.section`-classed
descendants of the `#centerColumn` element, in document order; for each, its
`data-dz-name` attribute and its `table/tbody/tr` rows; for each row, its
child cells with their `lang` attribute and text content. -/

/-- A `<td>` cell: its `lang` attribute (if any) and its `text_content()`. -/
structure Td where
  lang : Option String
  content : String
deriving DecidableEq, Repr

/-- A `<tr>` row: its child elements in document order. -/
structure Tr where
  tds : List Td
deriving DecidableEq, Repr

/-- A `.section`-classed element: its `data-dz-name` attribute (if any) and
its `table/tbody/tr` rows in document order. -/
structure Sect where
  name : Option String
  rows : List Tr
deriving DecidableEq, Repr

/-- The parsed page, reduced to the `.section`-classed descendants of
`#centerColumn` in document order. -/
structure Page where
  sections : List Sect
deriving DecidableEq, Repr

/-- The parsed command line (`argparse.Namespace`). -/
structure Args where
  with_defs : Bool
  with_examples : Bool
  with_phrases : Bool
  language : Option String
  query : String
deriving DecidableEq, Repr

/-- The `data` dict built at the top of `getResults`: the always-on category
keys with their display labels, extended by `-E` and `-P`.  The defs flag
`-D` is not consulted (the `definition` entry is commented out in the
source). -/
def dataEntries (args : Args) : List (String × String) :=
  [("subst", "Substantive"),
   ("verb", "Verbs"),
   ("adjadv", "Adjectives/Adverbs")]
  ++ (if args.with_examples then [("example", "Examples")] else [])
  ++ (if args.with_phrases then [("phrase", "Redewendung")] else [])

/-- The `td[@lang='code']` existence test of the row-selecting XPath. -/
def hasLangTd (code : String) (tr : Tr) : Bool :=
  tr.tds.any (fun td => td.lang = some code)

/-- The XPath `table/tbody/tr[td[@lang='{code}'] and td[@lang='de']]`:
keep the rows having both a source-language cell and a German cell,
in document order. -/
def selectRows (code : String) (rows : List Tr) : List Tr :=
  rows.filter (fun tr => hasLangTd code tr && hasLangTd "de" tr)

/-- Python `str.replace(old, new)` for a single-character pattern `old`
(the only pattern form `bin/leo.py` uses): every occurrence of `old` is
replaced by `new`.  (Lean's own `String.replace` is extensionally the same
here but does not reduce in the kernel.) -/
def replaceChar (old : Char) (new : String) (s : String) : String :=
  String.mk ((s.toList.map (fun c => if c = old then new.toList else [c])).flatten)

/-- `extracttext`: the cell's `text_content()` with the no-break-space
artifact removed and `'\xdf'` replaced by `'ß'` (U+00DF is `'ß'` itself, so
the second replace is the identity, kept for fidelity to the source). -/
def extracttext (s : String) : String :=
  replaceChar '\u00DF' "ß" (replaceChar '\u00A0' "" s)

/-- The per-row body of the first loop of `format_as_table`:
`c1, c2 = tr.getchildren()` (a two-element unpack; `none` models the
`ValueError` raised when the row does not have exactly two children), then
`t1 = extracttext(c1).strip()`, `t1 = " ".join(t1.split())`,
`t2 = extracttext(c2)` — only the left text is stripped and collapsed. -/
def formatRow (tr : Tr) : Option (String × String) :=
  match tr.tds with
  | [c1, c2] => some (collapseWs (pyStrip (extracttext c1.content)),
                      extracttext c2.content)
  | _ => none

/-- `format_as_table`: first pass collects `(t1, t2)` pairs and their left
widths, `max_width = max(widths)` (a `ValueError`, i.e. `none`, on an empty
row set), second pass prints `"{left:<{width}} | {right}"` per row.  The
result is the list of printed lines, `none` modelling an uncaught exception
before anything of the section body is printed. -/
def format_as_table (rows : List Tr) : Option (List String) :=
  (rows.mapM formatRow).bind (fun translations =>
    (pyMax? (translations.map (fun t => t.fst.length))).map (fun max_width =>
      translations.map (fun t => pyLJust t.fst max_width ++ " | " ++ t.snd)))

/-- The section header `"\n{0} {1} {0}".format("-" * 10, label)`. -/
def headerFor (label : String) : String :=
  "\n" ++ "----------" ++ " " ++ label ++ " " ++ "----------"

/-- The `for section in div.find_class("section")[:5]` loop of `getResults`,
applied to an already-truncated section list: returns the printed lines in
order and a flag that is `false` when the loop died with an uncaught
exception (everything printed before the death is kept). -/
def processSections (entries : List (String × String)) (code : String) :
    List Sect → List String × Bool
  | [] => ([], true)
  | s :: rest =>
    match s.name with
    | none => processSections entries code rest
    | some n =>
      match dictGet n entries with
      | none => processSections entries code rest
      | some label =>
        match format_as_table (selectRows code s.rows) with
        | none => ([headerFor label], false)
        | some lines =>
          let r := processSections entries code rest
          (headerFor label :: (lines ++ r.fst), r.snd)

/-- `getResults`: build the category map, compute
`lang_short(args.language)`, and walk the first five `.section` descendants
of `#centerColumn`.  Returns the lines printed to stdout in order, and
`false` in the second component when the run raised an uncaught exception. -/
def getResults (args : Args) (page : Page) : List String × Bool :=
  processSections (dataEntries args) (lang_short args.language)
    (page.sections.take 5)

/-- The key looked up for a section and its label, `none` when the section is
skipped by the `if name in data` test (missing attribute or disabled
category). -/
def sectionLabel (entries : List (String × String)) (s : Sect) : Option String :=
  s.name.bind (fun n => dictGet n entries)

/-- Specification-side renderer for the refinement claim about section
order: following the spec's words, each of the first five sections
contributes, in page order, its header followed by its formatted rows, and
nothing when its category is not enabled; `getResults` agrees with the
flattening of this per-section rendering whenever it completes. -/
def renderSectionSpec (entries : List (String × String)) (code : String)
    (s : Sect) : List String :=
  match s.name with
  | none => []
  | some n =>
    match dictGet n entries with
    | none => []
    | some label =>
      headerFor label :: ((format_as_table (selectRows code s.rows)).getD [])

/-- The two-row noun section of the claims' examples. -/
def sampleRows : List Tr :=
  [⟨[⟨some "en", "Haus"⟩, ⟨some "de", "das Haus"⟩]⟩,
   ⟨[⟨some "en", "Wohnungseigentum"⟩, ⟨some "de", "das Wohnungseigentum"⟩]⟩]

/-- The lines `format_as_table` prints for `sampleRows`: both left fields
are padded to width 16 = `len "Wohnungseigentum"`. -/
def sampleLines : List String :=
  ["Haus             | das Haus",
   "Wohnungseigentum | das Wohnungseigentum"]

/-- Default command line of the end-to-end examples: no optional flags,
English, query `"Haus"`. -/
def defaultArgs : Args := ⟨false, false, false, some "en", "Haus"⟩

/-- A section without a `data-dz-name` attribute: always skipped. -/
def blankSect : Sect := ⟨none, []⟩

/-- An enabled `subst` section with no rows: processing it dies in
`max([])`. -/
def emptySubstSect : Sect := ⟨some "subst", []⟩

/-- A `subst` section carrying `sampleRows`. -/
def sampleSect : Sect := ⟨some "subst", sampleRows⟩

/-- A one-section page holding `sampleSect`. -/
def samplePage : Page := ⟨[sampleSect]⟩

/-! ### Helper lemmas -/

theorem dictGet_eq_none {s : String} {l : List (String × String)}
    (h : ∀ p ∈ l, p.fst ≠ s) : dictGet s l = none := by
  induction l with
  | nil => rfl
  | cons p rest ih =>
    obtain ⟨k, v⟩ := p
    have hk : k ≠ s := h (k, v) (List.mem_cons_self _ _)
    simp only [dictGet, if_neg (Ne.symm hk)]
    exact ih (fun q hq => h q (List.mem_cons_of_mem _ hq))

theorem le_foldl_max (xs : List Nat) : ∀ a : Nat,
    a ≤ xs.foldl max a ∧ ∀ x ∈ xs, x ≤ xs.foldl max a := by
  induction xs with
  | nil => exact fun a => ⟨Nat.le_refl a, by simp⟩
  | cons b bs ih =>
    intro a
    have h := ih (max a b)
    refine ⟨Nat.le_trans (Nat.le_max_left a b) h.1, ?_⟩
    intro x hx
    rcases List.mem_cons.mp hx with rfl | hx
    · exact Nat.le_trans (Nat.le_max_right a x) h.1
    · exact h.2 x hx

theorem le_of_pyMax?_eq_some {l : List Nat} {w : Nat}
    (h : pyMax? l = some w) : ∀ x ∈ l, x ≤ w := by
  cases l with
  | nil => simp [pyMax?] at h
  | cons x xs =>
    simp only [pyMax?, Option.some.injEq] at h
    subst h
    intro y hy
    rcases List.mem_cons.mp hy with rfl | hy
    · exact (le_foldl_max xs y).1
    · exact (le_foldl_max xs x).2 y hy

theorem pyLJust_length {s : String} {w : Nat} (h : s.length ≤ w) :
    (pyLJust s w).length = w := by
  simp only [pyLJust, String.length_append, String.length_mk,
    List.length_replicate]
  omega

/-! ### Claim C2: language code/name round trip and fallback -/

set_option maxRecDepth 4096 in
/-- C2 — For every code in `LANGUAGES`, `lang_short (lang_name code)` gives
the code back; any input that is neither a configured code nor a configured
name makes `lang_name` return the first configured name `"englisch"` and
`lang_short` the first configured code `"en"`. -/
theorem C2_language_roundtrip_and_fallback :
    (∀ p ∈ LANGUAGES, lang_short (some (lang_name (some p.fst))) = p.fst) ∧
    (∀ s : String, (∀ p ∈ LANGUAGES, p.fst ≠ s) → (∀ p ∈ LANGUAGES, p.snd ≠ s) →
      lang_name (some s) = "englisch" ∧ lang_short (some s) = "en") := by
  constructor
  · intro p hp
    fin_cases hp <;> rfl
  · intro s h1 h2
    have hget : dictGet s LANGUAGES = none := dictGet_eq_none h1
    have hany1 : (LANGUAGES.any (fun p => p.fst = s)) = false := by
      simp only [List.any_eq_false, decide_eq_true_eq]
      exact h1
    have hany2 : (LANGUAGES.any (fun p => p.snd = s)) = false := by
      simp only [List.any_eq_false, decide_eq_true_eq]
      exact h2
    have hfind : LANGUAGES.find? (fun p => p.snd = s) = none := by
      simp only [List.find?_eq_none, decide_eq_true_eq]
      exact h2
    constructor
    · simp only [lang_name, hget, hany2, Bool.false_eq_true, if_false]
      rfl
    · simp only [lang_short, hany1, hfind, Bool.false_eq_true, if_false]
      rfl

/-- Witness for C2 at the code `"es"` and the unrecognized input `"xx"`. -/
theorem C2_language_roundtrip_and_fallback_witness :
    (("es", "spanisch") ∈ LANGUAGES ∧
      lang_short (some (lang_name (some "es"))) = "es") ∧
    (lang_name (some "xx") = "englisch" ∧ lang_short (some "xx") = "en") :=
  ⟨⟨by decide,
    C2_language_roundtrip_and_fallback.1 ("es", "spanisch") (by decide)⟩,
   C2_language_roundtrip_and_fallback.2 "xx" (by decide) (by decide)⟩

/-! ### Claim C7: URL construction -/

/-- C7 counterexample — the query is interpolated into the URL verbatim:
for the query `"Haus Boot"` the constructed URL contains a raw space, not
the URL-encoded `%20` form the claim asserts. -/
theorem C7_counterexample_query_not_encoded :
    buildURL (lang_name (some "es")) "Haus Boot"
        = "http://pda.leo.org/spanisch-deutsch/Haus Boot" ∧
    buildURL (lang_name (some "es")) "Haus Boot"
        ≠ "http://pda.leo.org/spanisch-deutsch/Haus%20Boot" := by
  constructor
  · rfl
  · decide

/-- C7 amended — the single GET targets
`http://pda.leo.org/<full source-language name>-deutsch/<query>` with the
query inserted verbatim (any percent-encoding is left to the HTTP client);
`-l es` yields the path segment `spanisch-deutsch`. -/
theorem C7_amended_url_template :
    (∀ language query : String,
      buildURL language query
        = "http://pda.leo.org/" ++ language ++ "-deutsch/" ++ query) ∧
    lang_name (some "es") = "spanisch" ∧
    (∀ query : String,
      buildURL (lang_name (some "es")) query
        = "http://pda.leo.org/spanisch-deutsch/" ++ query) := by
  refine ⟨fun _ _ => rfl, rfl, fun query => rfl⟩

/-! ### Claim C1: non-2xx response and the exit code it produces -/

/-- C1 — the code contradicts the claim: `getLeoPage` does raise
`requests.exceptions.HTTPError(response)` for a 500 response, but that
exception is an `IOError` and not a `requests.exceptions.BaseHTTPError`, so
`__main__` catches it in the `except IOError` ("term wasn't found") clause
and exits with 20, the Not-Found code — not with 15, the code designated for
HTTP/Transport errors, whose handler is unreachable for this exception. -/
theorem C1_http_error_lands_on_not_found_code :
    getLeoPageExn 500 = some (PyExn.requestsHTTPError 500) ∧
    exitForResponse 500 = some 20 ∧
    handledExit (PyExn.requestsHTTPError 500) = handledExit PyExn.otherIOError ∧
    handledExit (PyExn.requestsHTTPError 500) ≠ some 15 ∧
    handledExit PyExn.urllib3HTTPError = some 15 := by
  decide

/-! ### Claim C6: exit codes of the failure classes -/

/-- C6 counterexample — the exit code for a missing `lxml` dependency and
the exit code for a network timeout are both 10, refuting the claimed
pairwise distinctness of the four failure-class codes. -/
theorem C6_counterexample_lxml_equals_timeout :
    missingLxmlExit = 10 ∧ handledExit PyExn.requestsTimeout = some 10 := by
  decide

/-- C6 amended — exit code 0 on success; missing `requests` exits 200,
missing `lxml` exits 10, timeout exits 10, the transport (`BaseHTTPError`)
handler exits 15 and not-found (`IOError`) exits 20: the missing-`lxml` code
coincides with the timeout code, while every other pair of failure codes is
distinct. -/
theorem C6_amended_exit_codes :
    exitForResponse 200 = some 0 ∧
    missingRequestsExit = 200 ∧
    missingLxmlExit = 10 ∧
    handledExit PyExn.requestsTimeout = some 10 ∧
    handledExit PyExn.urllib3HTTPError = some 15 ∧
    handledExit PyExn.otherIOError = some 20 ∧
    missingRequestsExit ≠ missingLxmlExit ∧
    missingRequestsExit ≠ 15 ∧ missingRequestsExit ≠ 20 ∧
    missingLxmlExit ≠ 15 ∧ missingLxmlExit ≠ 20 ∧ (15 : Nat) ≠ 20 := by
  decide

/-! ### Claim C4: cell text extraction -/

/-- C4 counterexample — only the left cell's text is stripped and collapsed:
a right-hand (German) cell whose `text_content()` is `"  to   run  \n"` is
printed verbatim (it has no no-break spaces to remove), not as the `"to run"`
the claim demands for every cell. -/
theorem C4_counterexample_right_cell_kept_verbatim :
    formatRow ⟨[⟨some "en", "x"⟩, ⟨some "de", "  to   run  \n"⟩]⟩
        = some ("x", "  to   run  \n") ∧
    ("  to   run  \n" : String) ≠ "to run" := by
  constructor
  · rfl
  · decide

/-- C4 amended — for each row the left cell's text is `extracttext` (no-break
spaces removed) then stripped and whitespace-collapsed, so a left cell
`"  to   run  \n"` yields `"to run"`; the right cell's printed text is only
`extracttext`, with no collapsing or stripping. -/
theorem C4_amended_text_extraction :
    (∀ (l1 l2 : Option String) (t1 t2 : String),
      formatRow ⟨[⟨l1, t1⟩, ⟨l2, t2⟩]⟩
        = some (collapseWs (pyStrip (extracttext t1)), extracttext t2)) ∧
    collapseWs (pyStrip (extracttext "  to   run  \n")) = "to run" ∧
    extracttext ("a" ++ "\u00A0" ++ "b") = "ab" := by
  refine ⟨fun _ _ _ _ => rfl, by decide, by decide⟩

/-! ### Claim C5: column alignment within a section -/

/-- C5 — whenever `format_as_table` prints a section's rows, there is a
single width `w`, the maximum left-column width over the section's rows, and
every printed line is `<left padded to w> | <right>` with a left field of
exactly `w` characters. -/
theorem C5_uniform_padding (rows : List Tr) (lines : List String)
    (h : format_as_table rows = some lines) :
    ∃ ts w, rows.mapM formatRow = some ts ∧
      pyMax? (ts.map (fun t => t.fst.length)) = some w ∧
      lines = ts.map (fun t => pyLJust t.fst w ++ " | " ++ t.snd) ∧
      ∀ t ∈ ts, (pyLJust t.fst w).length = w := by
  unfold format_as_table at h
  rw [Option.bind_eq_some] at h
  obtain ⟨ts, hm, h⟩ := h
  rw [Option.map_eq_some'] at h
  obtain ⟨w, hw, hl⟩ := h
  refine ⟨ts, w, hm, hw, hl.symm, ?_⟩
  intro t ht
  exact pyLJust_length
    (le_of_pyMax?_eq_some hw t.fst.length (List.mem_map_of_mem _ ht))

/-- Witness for C5 on the `"Haus"` / `"Wohnungseigentum"` example. -/
theorem C5_uniform_padding_witness :
    (format_as_table sampleRows = some sampleLines ∧
      (pyLJust "Haus" 16).length = 16 ∧
      "Haus            ".length = 16 ∧ "Wohnungseigentum".length = 16) ∧
    (∃ ts w, sampleRows.mapM formatRow = some ts ∧
      pyMax? (ts.map (fun t => t.fst.length)) = some w ∧
      sampleLines = ts.map (fun t => pyLJust t.fst w ++ " | " ++ t.snd) ∧
      ∀ t ∈ ts, (pyLJust t.fst w).length = w) :=
  ⟨⟨by decide, by decide, by decide, by decide⟩,
   C5_uniform_padding sampleRows sampleLines (by decide)⟩

/-! ### Claim C10: an enabled section with zero selected rows -/

/-- C10 — when an enabled section matches but no table row survives the
two-cell filter, `format_as_table` hits `max([])`, i.e. an uncaught
`ValueError`, after the section header has already been printed: the run
dies (flag `false`) with the header as its last printed line, and a
`ValueError` is caught by none of the `except` clauses of `__main__`, so no
documented exit code is produced. -/
theorem C10_empty_section_dies_after_header (args : Args) (n label : String)
    (rows : List Tr)
    (h1 : dictGet n (dataEntries args) = some label)
    (h2 : selectRows (lang_short args.language) rows = []) :
    getResults args ⟨[⟨some n, rows⟩]⟩ = ([headerFor label], false) ∧
    pyMax? [] = none ∧
    handledExit PyExn.valueError = none := by
  refine ⟨?_, rfl, rfl⟩
  simp only [getResults, List.take, processSections, h1, h2]
  rfl

/-- Witness for C10: default flags, a `subst` section whose row list is
empty. -/
theorem C10_empty_section_dies_after_header_witness :
    getResults ⟨false, false, false, some "en", "Haus"⟩ ⟨[⟨some "subst", []⟩]⟩
        = (["\n---------- Substantive ----------"], false) ∧
    pyMax? [] = none ∧ handledExit PyExn.valueError = none := by
  have h := C10_empty_section_dies_after_header
    ⟨false, false, false, some "en", "Haus"⟩ "subst" "Substantive" []
    (by decide) (by decide)
  simpa [headerFor] using h

/-! ### Claim C9: the -D flag is dead -/

/-- C9 — `-D` (`--with-defs`) is parsed into the `Args` but never consulted:
flipping it changes neither the printed lines nor the success flag, and the
`definition` key is never in the enabled category map, for any combination
of the other options. -/
theorem C9_with_defs_flag_has_no_effect :
    (∀ (b1 b2 e p : Bool) (l : Option String) (q : String) (page : Page),
      getResults ⟨b1, e, p, l, q⟩ page = getResults ⟨b2, e, p, l, q⟩ page) ∧
    (∀ args : Args, dictGet "definition" (dataEntries args) = none) := by
  constructor
  · intro b1 b2 e p l q page
    rfl
  · intro args
    obtain ⟨b, e, p, l, q⟩ := args
    cases e <;> cases p <;> rfl

/-! ### Claims C3 and C8: helper lemmas on the section loop -/

theorem selectRows_middle_skip (code : String) (tr : Tr)
    (h : (hasLangTd code tr && hasLangTd "de" tr) = false)
    (rpre rpost : List Tr) :
    selectRows code (rpre ++ tr :: rpost) = selectRows code (rpre ++ rpost) := by
  simp only [selectRows, List.filter_append]
  rw [List.filter_cons_of_neg (by simp [h])]

theorem processSections_cons_skip {entries : List (String × String)}
    {code : String} {s : Sect} (h : sectionLabel entries s = none)
    (rest : List Sect) :
    processSections entries code (s :: rest)
      = processSections entries code rest := by
  obtain ⟨nm, rows⟩ := s
  cases nm with
  | none => rfl
  | some n =>
    simp only [sectionLabel, Option.some_bind] at h
    simp [processSections, h]

theorem processSections_middle_skip {entries : List (String × String)}
    {code : String} {s : Sect} (h : sectionLabel entries s = none)
    (pre post : List Sect) :
    processSections entries code (pre ++ s :: post)
      = processSections entries code (pre ++ post) := by
  induction pre with
  | nil => exact processSections_cons_skip h post
  | cons p ps ih =>
    obtain ⟨nm, rows⟩ := p
    cases nm with
    | none => simpa [processSections] using ih
    | some n =>
      cases hd : dictGet n entries with
      | none => simpa [processSections, hd] using ih
      | some label =>
        cases hf : format_as_table (selectRows code rows) with
        | none => simp [processSections, hd, hf]
        | some lines => simp [processSections, hd, hf, ih]

theorem processSections_congr {entries : List (String × String)}
    {code : String} {ss₁ ss₂ : List Sect}
    (h : List.Forall₂
      (fun a b => a.name = b.name ∧ selectRows code a.rows = selectRows code b.rows)
      ss₁ ss₂) :
    processSections entries code ss₁ = processSections entries code ss₂ := by
  induction h with
  | nil => rfl
  | cons hab htl ih =>
    rename_i a b l₁ l₂
    obtain ⟨a1, a2⟩ := a
    obtain ⟨b1, b2⟩ := b
    obtain ⟨hname, hrows⟩ := hab
    simp only at hname hrows
    rw [hname]
    cases b1 with
    | none => simpa [processSections] using ih
    | some n =>
      cases hd : dictGet n entries with
      | none => simpa [processSections, hd] using ih
      | some label =>
        cases hf : format_as_table (selectRows code b2) with
        | none => simp [processSections, hd, hrows, hf]
        | some lines => simp [processSections, hd, hrows, hf, ih]

theorem processSections_ok_eq (entries : List (String × String))
    (code : String) :
    ∀ ss : List Sect, (processSections entries code ss).snd = true →
    (processSections entries code ss).fst
      = (ss.map (renderSectionSpec entries code)).flatten := by
  intro ss
  induction ss with
  | nil => intro _; rfl
  | cons s rest ih =>
    intro h
    obtain ⟨nm, rows⟩ := s
    cases nm with
    | none =>
      simpa [processSections, renderSectionSpec]
        using ih (by simpa [processSections] using h)
    | some n =>
      cases hd : dictGet n entries with
      | none =>
        simpa [processSections, renderSectionSpec, hd]
          using ih (by simpa [processSections, hd] using h)
      | some label =>
        cases hf : format_as_table (selectRows code rows) with
        | none =>
          exfalso
          simp [processSections, hd, hf] at h
        | some lines =>
          have h' : (processSections entries code rest).snd = true := by
            simpa [processSections, hd, hf] using h
          simp [processSections, renderSectionSpec, hd, hf, ih h']

/-! ### Claim C3: the category filter and the row filter -/

/-- C3 — (i) a section whose `data-dz-name` is missing or not among the
enabled category keys contributes nothing to the output (stated on pages of
at most five sections, where truncation cannot interfere), and (ii) a table
row lacking a cell for the query's source-language code or lacking a German
cell is silently dropped: removing it from any section of any page changes
nothing, neither lines nor the success flag. -/
theorem C3_category_and_row_filter :
    (∀ (args : Args) (pre post : List Sect) (s : Sect),
      (pre ++ s :: post).length ≤ 5 →
      sectionLabel (dataEntries args) s = none →
      getResults args ⟨pre ++ s :: post⟩ = getResults args ⟨pre ++ post⟩) ∧
    (∀ (args : Args) (spre spost : List Sect) (nm : Option String)
        (rpre rpost : List Tr) (tr : Tr),
      (hasLangTd (lang_short args.language) tr && hasLangTd "de" tr) = false →
      getResults args ⟨spre ++ ⟨nm, rpre ++ tr :: rpost⟩ :: spost⟩
        = getResults args ⟨spre ++ ⟨nm, rpre ++ rpost⟩ :: spost⟩) := by
  constructor
  · intro args pre post s hlen hskip
    have hlen' : (pre ++ post).length ≤ 5 := by
      simp only [List.length_append, List.length_cons] at hlen ⊢
      omega
    show processSections _ _ ((pre ++ s :: post).take 5)
        = processSections _ _ ((pre ++ post).take 5)
    rw [List.take_of_length_le hlen, List.take_of_length_le hlen']
    exact processSections_middle_skip hskip pre post
  · intro args spre spost nm rpre rpost tr h
    have hsel := selectRows_middle_skip (lang_short args.language) tr h
      rpre rpost
    apply processSections_congr
    apply List.forall₂_take
    refine List.rel_append ?_ (List.Forall₂.cons ⟨rfl, hsel⟩ ?_) <;>
      exact List.forall₂_same.mpr (fun x _ => ⟨rfl, rfl⟩)

/-- Witness for C3: a `phrase` section is skipped when `-P` is absent, and a
row lacking the German cell is dropped from a `subst` section. -/
theorem C3_category_and_row_filter_witness :
    (([] ++ (⟨some "phrase", sampleRows⟩ : Sect) :: [sampleSect]).length ≤ 5 ∧
      sectionLabel (dataEntries defaultArgs) ⟨some "phrase", sampleRows⟩ = none ∧
      getResults defaultArgs ⟨[] ++ (⟨some "phrase", sampleRows⟩ : Sect) :: [sampleSect]⟩
        = getResults defaultArgs ⟨[] ++ [sampleSect]⟩) ∧
    ((hasLangTd (lang_short defaultArgs.language) ⟨[⟨some "en", "lonely"⟩]⟩ &&
        hasLangTd "de" ⟨[⟨some "en", "lonely"⟩]⟩) = false ∧
      getResults defaultArgs ⟨[] ++ (⟨some "subst", [] ++ (⟨[⟨some "en", "lonely"⟩]⟩ : Tr) :: sampleRows⟩ : Sect) :: []⟩
        = getResults defaultArgs ⟨[] ++ (⟨some "subst", ([] ++ sampleRows : List Tr)⟩ : Sect) :: []⟩) :=
  ⟨⟨by decide, by decide,
    C3_category_and_row_filter.1 defaultArgs [] [sampleSect]
      ⟨some "phrase", sampleRows⟩ (by decide) (by decide)⟩,
   ⟨by decide,
    C3_category_and_row_filter.2 defaultArgs [] [] (some "subst") [] sampleRows
      ⟨[⟨some "en", "lonely"⟩]⟩ (by decide)⟩⟩

/-! ### Claim C8: only the first five sections, in page order -/

/-- C8 — (i) appending sections after a fifth one never changes the output,
(ii) whenever the run completes, the printed lines are exactly the
concatenation, in page order, of the per-section renderings of the first
five sections (each being its header followed by its rows, or nothing when
skipped), and (iii) the selected rows of a section are a sublist of its rows,
i.e. kept in page order. -/
theorem C8_first_five_sections_in_page_order :
    (∀ (args : Args) (ss extra : List Sect), 5 ≤ ss.length →
      getResults args ⟨ss ++ extra⟩ = getResults args ⟨ss⟩) ∧
    (∀ (args : Args) (page : Page), (getResults args page).snd = true →
      (getResults args page).fst
        = ((page.sections.take 5).map
            (renderSectionSpec (dataEntries args) (lang_short args.language))).flatten) ∧
    (∀ (code : String) (rows : List Tr), (selectRows code rows).Sublist rows) := by
  refine ⟨?_, ?_, ?_⟩
  · intro args ss extra h
    show processSections _ _ ((ss ++ extra).take 5) = processSections _ _ (ss.take 5)
    rw [List.take_append_of_le_length h]
  · intro args page h
    exact processSections_ok_eq (dataEntries args) (lang_short args.language)
      (page.sections.take 5) h
  · intro code rows
    exact List.filter_sublist rows

/-- Witness for C8: a sixth (crashing) section is ignored, the one-section
sample page renders as the flattened spec-side rendering, and row selection
on the sample rows is a sublist. -/
theorem C8_first_five_sections_in_page_order_witness :
    (5 ≤ ([blankSect, blankSect, blankSect, blankSect, blankSect] : List Sect).length ∧
      getResults defaultArgs ⟨[blankSect, blankSect, blankSect, blankSect, blankSect] ++ [emptySubstSect]⟩
        = getResults defaultArgs ⟨[blankSect, blankSect, blankSect, blankSect, blankSect]⟩) ∧
    ((getResults defaultArgs samplePage).snd = true ∧
      (getResults defaultArgs samplePage).fst
        = ((samplePage.sections.take 5).map
            (renderSectionSpec (dataEntries defaultArgs) (lang_short defaultArgs.language))).flatten) ∧
    (selectRows "en" sampleRows).Sublist sampleRows :=
  ⟨⟨by decide,
    C8_first_five_sections_in_page_order.1 defaultArgs
      [blankSect, blankSect, blankSect, blankSect, blankSect] [emptySubstSect]
      (by decide)⟩,
   ⟨by decide,
    C8_first_five_sections_in_page_order.2.1 defaultArgs samplePage (by decide)⟩,
   C8_first_five_sections_in_page_order.2.2 "en" sampleRows⟩

end Leo


